import Mathlib

/-!
Verification of the daily-limit simulation and parameter-sweep optimizer of
the Backtest-Analyzer repository.

Money values are modelled as rationals (`ℚ`).  A trade's entry time is
modelled as a pair `(day, tod)`: `day` is the entry date (the Python code's
`trade_date`, the entry time truncated to day granularity) and `tod` orders
trades within one day.
-/

namespace BacktestAnalyzer

/-- Embedding of `trade_model.Trade` (the fields the simulation reads). -/
structure Trade where
  trade_id : Nat
  day : Nat
  tod : Nat
  profit_usd : ℚ
  max_profit_usd : ℚ
  max_loss_usd : ℚ
deriving DecidableEq, Repr

/-- Ordering of trades by entry time: `(day, tod)` lexicographically.
`TradeCollection._sort_trades` sorts by this key. -/
def entryLe (a b : Trade) : Prop :=
  a.day < b.day ∨ (a.day = b.day ∧ a.tod ≤ b.tod)

instance : DecidableRel entryLe := fun a b =>
  inferInstanceAs (Decidable (a.day < b.day ∨ (a.day = b.day ∧ a.tod ≤ b.tod)))

/-- `TradeCollection._sort_trades`: sort by entry time (stable). -/
def sort_trades (tc : List Trade) : List Trade :=
  List.insertionSort entryLe tc

/-- `TradeCollection.get_trades_by_date`: trades of one date, collection order. -/
def get_trades_by_date (tc : List Trade) (d : Nat) : List Trade :=
  tc.filter (fun t => t.day = d)

/-- `TradeCollection.get_unique_dates`: `sorted(list(set(trade dates)))`. -/
def get_unique_dates (tc : List Trade) : List Nat :=
  List.insertionSort (· ≤ ·) (tc.map Trade.day).dedup

/-- `TradeCollection.get_win_rate`: profitable count / total, 0 on empty. -/
def get_win_rate (trades : List Trade) : ℚ :=
  if trades = [] then 0
  else (trades.countP (fun t => decide (0 < t.profit_usd)) : ℚ) / trades.length

/-- `TradeCollection.get_profit_factor`: Σ wins / |Σ losses|, with the
`float('inf')` branch modelled as `⊤` in `WithTop ℚ`. -/
def get_profit_factor (trades : List Trade) : WithTop ℚ :=
  let tp := ((trades.filter (fun t => decide (0 < t.profit_usd))).map Trade.profit_usd).sum
  let tl := |((trades.filter (fun t => !decide (0 < t.profit_usd))).map Trade.profit_usd).sum|
  if tl = 0 then (if 0 < tp then ⊤ else 0) else ((tp / tl : ℚ) : WithTop ℚ)

/-- State of the inner per-day loop of `DailyLimitOptimizer._evaluate_parameters`:
`daily_cumulative_profit`, `daily_included_trades`, `hit_profit_limit`,
`hit_loss_limit`. -/
structure DayState where
  dcp : ℚ
  included : List Trade
  hitProfit : Bool
  hitLoss : Bool
deriving DecidableEq, Repr

/-- One iteration of that loop (optimizer.py lines 73-94).  The source adds
the trade's profit, appends the trade, then runs two sequential `if`s: the
profit check on the running total, then the loss check on the (possibly
already clamped) total — so in the profit-triggered branch the loss check
sees the value `P`. -/
def processTrade (P L : ℚ) (s : DayState) (t : Trade) : DayState :=
  if s.hitProfit || s.hitLoss then s
  else if 0 < P ∧ P ≤ s.dcp + t.profit_usd then
    (if 0 < L ∧ P ≤ -L then ⟨-L, s.included ++ [t], true, true⟩
     else ⟨P, s.included ++ [t], true, false⟩)
  else if 0 < L ∧ s.dcp + t.profit_usd ≤ -L then
    ⟨-L, s.included ++ [t], false, true⟩
  else ⟨s.dcp + t.profit_usd, s.included ++ [t], false, false⟩

/-- The whole per-day loop. -/
def processDay (P L : ℚ) (trades : List Trade) : DayState :=
  trades.foldl (processTrade P L) ⟨0, [], false, false⟩

/-- One record of `daily_metrics` (optimizer.py lines 110-115). -/
structure DailyMetric where
  date : Nat
  profit : ℚ
  trade_count : Nat
  hit_profit_limit : Bool
  hit_loss_limit : Bool
deriving DecidableEq, Repr

/-- Embedding of `trade_model.OptimizationResult` (without the back-reference
to the original collection). -/
structure OptimizationResult where
  daily_profit_limit : ℚ
  daily_loss_limit : ℚ
  trades : List Trade
  total_profit : ℚ
  profit_factor : WithTop ℚ
  win_rate : ℚ
  total_trade_days : Nat
  profit_days : Nat
  loss_days : Nat
  hit_profit_limit_days : Nat
  hit_loss_limit_days : Nat
  max_drawdown : ℚ
  trade_count : Nat
  daily_metrics : List DailyMetric
  equity_curve : List ℚ
deriving DecidableEq

/-- Accumulator of the per-date loop of `_evaluate_parameters`. -/
structure EvalState where
  optimized_trades : List Trade
  daily_metrics : List DailyMetric
  equity_curve : List ℚ
  total_profit : ℚ
  profit_days : Nat
  loss_days : Nat
  hit_profit_limit_days : Nat
  hit_loss_limit_days : Nat
deriving DecidableEq

/-- Initial accumulator: `equity_curve = [0.0]`, everything else empty/zero. -/
def evalInit : EvalState := ⟨[], [], [0], 0, 0, 0, 0, 0⟩

/-- One iteration of the per-date loop (optimizer.py lines 63-115).  The
source increments `hit_profit_limit_days` / `hit_loss_limit_days` at the
unique triggering step of a day; since a flag, once set, skips the rest of
the day, that equals adding 1 per day whose final flag is set. -/
def processDate (tc : List Trade) (P L : ℚ) (st : EvalState) (d : Nat) : EvalState :=
  let s := processDay P L (get_trades_by_date tc d)
  { optimized_trades := st.optimized_trades ++ s.included
    daily_metrics := st.daily_metrics ++ [⟨d, s.dcp, s.included.length, s.hitProfit, s.hitLoss⟩]
    equity_curve := st.equity_curve ++ [st.total_profit + s.dcp]
    total_profit := st.total_profit + s.dcp
    profit_days := st.profit_days + (if 0 < s.dcp then 1 else 0)
    loss_days := st.loss_days + (if s.dcp < 0 then 1 else 0)
    hit_profit_limit_days := st.hit_profit_limit_days + (if s.hitProfit then 1 else 0)
    hit_loss_limit_days := st.hit_loss_limit_days + (if s.hitLoss then 1 else 0) }

/-- One step of `DailyLimitOptimizer._calculate_max_drawdown`: state is
`(max_dd, peak)`. -/
def mddStep (st : ℚ × ℚ) (v : ℚ) : ℚ × ℚ :=
  let peak := if st.2 < v then v else st.2
  let dd := peak - v
  (if st.1 < dd then dd else st.1, peak)

/-- `DailyLimitOptimizer._calculate_max_drawdown`: `peak` starts at the first
curve element (in the program the curve always starts with the leading 0). -/
def calculate_max_drawdown (curve : List ℚ) : ℚ :=
  (curve.foldl mddStep (0, curve.headI)).1

/-- Assembly of the `OptimizationResult` record (optimizer.py lines 117-145). -/
def mkResult (P L : ℚ) (st : EvalState) (ndays : Nat) : OptimizationResult :=
  { daily_profit_limit := P
    daily_loss_limit := L
    trades := st.optimized_trades
    total_profit := st.total_profit
    profit_factor := get_profit_factor st.optimized_trades
    win_rate := get_win_rate st.optimized_trades
    total_trade_days := ndays
    profit_days := st.profit_days
    loss_days := st.loss_days
    hit_profit_limit_days := st.hit_profit_limit_days
    hit_loss_limit_days := st.hit_loss_limit_days
    max_drawdown := calculate_max_drawdown st.equity_curve
    trade_count := st.optimized_trades.length
    daily_metrics := st.daily_metrics
    equity_curve := st.equity_curve }

/-- `DailyLimitOptimizer._evaluate_parameters`. -/
def evaluate_parameters (tc : List Trade) (P L : ℚ) : OptimizationResult :=
  mkResult P L ((get_unique_dates tc).foldl (processDate tc P L) evalInit)
    (get_unique_dates tc).length

/-- The pair grid `[(pl, ll) for pl in profit_limits for ll in loss_limits]`. -/
def combinations (pls lls : List ℚ) : List (ℚ × ℚ) :=
  pls.flatMap (fun pl => lls.map (fun ll => (pl, ll)))

/-- Comparison used by `self.results.sort(key=lambda x: x.total_profit,
reverse=True)`: descending by total profit. -/
def resultGe (a b : OptimizationResult) : Prop :=
  b.total_profit ≤ a.total_profit

instance : DecidableRel resultGe := fun a b =>
  inferInstanceAs (Decidable (b.total_profit ≤ a.total_profit))

instance : IsTotal OptimizationResult resultGe :=
  ⟨fun a b => le_total b.total_profit a.total_profit⟩

instance : IsTrans OptimizationResult resultGe :=
  ⟨fun _ _ _ hab hbc => le_trans hbc hab⟩

/-- `DailyLimitOptimizer.run_optimization`.  The thread pool evaluates the
pair grid concurrently and `as_completed` yields results in completion
order, which is the nondeterministic input `order` here (a permutation of
`combinations`); the final stable sort by descending total profit is the
insertion sort with `resultGe`.  `_evaluate_parameters` is total in this
embedding, so the per-future exception handler has no error path. -/
def run_optimization (tc : List Trade) (order : List (ℚ × ℚ)) : List OptimizationResult :=
  List.insertionSort resultGe (order.map (fun p => evaluate_parameters tc p.1 p.2))

/-! Embedding of `data_processor.DataProcessor.apply_daily_limits`.  The
DataFrame columns map to `Trade` fields: 获利 USD ↦ `profit_usd`,
最大交易获利 USD ↦ `max_profit_usd`, 最大交易亏损 USD ↦ `max_loss_usd`. -/

/-- Status-message failures of `apply_daily_limits` (each returns `None`
after emitting the corresponding status signal). -/
inductive ProcError where
  | noData
  | nonPositiveProfitLimit
  | nonPositiveLossLimit
deriving DecidableEq, Repr

/-- One `trade_result` row (获利 USD after adjustment, 原始获利 USD, 执行). -/
structure ProcTradeResult where
  adjusted_profit : ℚ
  original_profit : ℚ
  executed : Bool
deriving DecidableEq, Repr

/-- State of the inner per-trade loop of `apply_daily_limits`. -/
structure ProcDayState where
  dcp : ℚ
  profitTriggered : Bool
  lossTriggered : Bool
  rows : List ProcTradeResult
deriving DecidableEq, Repr

/-- One iteration of the per-trade loop (data_processor.py lines 133-210).
The profit trigger fires on `profit_usd > 0` and
`dcp + max_trade_profit >= daily_profit_limit`; the loss trigger (an
`elif`) on `profit_usd < 0` and `dcp - abs(max_trade_loss) <= -loss_limit`. -/
def procTrade (P L : ℚ) (s : ProcDayState) (t : Trade) : ProcDayState :=
  if s.profitTriggered || s.lossTriggered then
    { s with rows := s.rows ++ [⟨0, t.profit_usd, false⟩] }
  else if 0 < t.profit_usd ∧ P ≤ s.dcp + t.max_profit_usd then
    { dcp := P, profitTriggered := true, lossTriggered := s.lossTriggered
      rows := s.rows ++ [⟨P - s.dcp, t.profit_usd, true⟩] }
  else if t.profit_usd < 0 ∧ s.dcp - |t.max_loss_usd| ≤ -L then
    { dcp := -L, profitTriggered := s.profitTriggered, lossTriggered := true
      rows := s.rows ++ [⟨-L - s.dcp, t.profit_usd, true⟩] }
  else
    { s with dcp := s.dcp + t.profit_usd
             rows := s.rows ++ [⟨t.profit_usd, t.profit_usd, true⟩] }

/-- The whole per-trade loop of one day. -/
def procDay (P L : ℚ) (trades : List Trade) : ProcDayState :=
  trades.foldl (procTrade P L) ⟨0, false, false, []⟩

/-- One `daily_result` record (without the per-trade rows, which are
aggregated into `trade_details`). -/
structure ProcDayResult where
  date : Nat
  daily_profit : ℚ
  cumulative_profit : ℚ
  profit_limit_triggered : Bool
  loss_limit_triggered : Bool
deriving DecidableEq, Repr

/-- The `result` dictionary of `apply_daily_limits`. -/
structure ProcResult where
  daily_profit_limit : ℚ
  daily_loss_limit : ℚ
  trade_details : List ProcTradeResult
  daily_results : List ProcDayResult
  total_profit : ℚ
  profitable_days : Nat
  loss_days : Nat
  profit_limit_triggered_days : Nat
  loss_limit_triggered_days : Nat
  total_trades : Nat
  executed_trades : Nat
  winning_trades : Nat
  losing_trades : Nat
  profit_factor : WithTop ℚ
  win_rate : ℚ
  max_drawdown : ℚ
  equity_curve : List (Nat × ℚ × ℚ)
deriving DecidableEq

/-- Accumulator of the per-date loop of `apply_daily_limits`. -/
structure ApplyState where
  equity : ℚ
  max_equity : ℚ
  max_drawdown : ℚ
  trade_details : List ProcTradeResult
  daily_results : List ProcDayResult
  equity_curve : List (Nat × ℚ × ℚ)
  profitable_days : Nat
  loss_days : Nat
  profit_limit_triggered_days : Nat
  loss_limit_triggered_days : Nat
  executed_trades : Nat
  winning_trades : Nat
  losing_trades : Nat
  win_total : ℚ
  loss_total : ℚ
deriving DecidableEq

/-- One iteration of the per-date loop (data_processor.py lines 118-244).
`_prepare_daily_trades` groups the frame by date and sorts each day's
trades by entry time, hence `sort_trades (get_trades_by_date tc d)`. -/
def applyDate (tc : List Trade) (P L : ℚ) (st : ApplyState) (d : Nat) : ApplyState :=
  let s := procDay P L (sort_trades (get_trades_by_date tc d))
  let equity := st.equity + s.dcp
  let max_equity := max st.max_equity equity
  let drawdown := max_equity - equity
  { equity := equity
    max_equity := max_equity
    max_drawdown := max st.max_drawdown drawdown
    trade_details := st.trade_details ++ s.rows
    daily_results := st.daily_results ++
      [⟨d, s.dcp, equity, s.profitTriggered, s.lossTriggered⟩]
    equity_curve := st.equity_curve ++ [(d, equity, drawdown)]
    profitable_days := st.profitable_days + (if 0 < s.dcp then 1 else 0)
    loss_days := st.loss_days + (if s.dcp < 0 then 1 else 0)
    profit_limit_triggered_days :=
      st.profit_limit_triggered_days + (if s.profitTriggered then 1 else 0)
    loss_limit_triggered_days :=
      st.loss_limit_triggered_days + (if s.lossTriggered then 1 else 0)
    executed_trades := st.executed_trades + s.rows.countP (·.executed)
    winning_trades := st.winning_trades +
      s.rows.countP (fun r => r.executed && decide (0 < r.adjusted_profit))
    losing_trades := st.losing_trades +
      s.rows.countP (fun r => r.executed && decide (r.adjusted_profit < 0))
    win_total := st.win_total +
      ((s.rows.filter (fun r => r.executed && decide (0 < r.adjusted_profit))).map
        ProcTradeResult.adjusted_profit).sum
    loss_total := st.loss_total -
      ((s.rows.filter (fun r => r.executed && decide (r.adjusted_profit < 0))).map
        ProcTradeResult.adjusted_profit).sum }

/-- Initial accumulator of `apply_daily_limits`. -/
def applyInit : ApplyState := ⟨0, 0, 0, [], [], [], 0, 0, 0, 0, 0, 0, 0, 0, 0⟩

/-- `DataProcessor.apply_daily_limits`.  An empty collection leaves
`daily_trades` as `None` (`_prepare_daily_trades` returns early), which is
the "no data" failure; then the two limits are validated in order.  On
success the per-date loop runs over the sorted distinct dates. -/
def apply_daily_limits (tc : List Trade) (P L : ℚ) : Except ProcError ProcResult :=
  if tc = [] then .error .noData
  else if P ≤ 0 then .error .nonPositiveProfitLimit
  else if L ≤ 0 then .error .nonPositiveLossLimit
  else
    let st := (get_unique_dates tc).foldl (applyDate tc P L) applyInit
    .ok
      { daily_profit_limit := P
        daily_loss_limit := L
        trade_details := st.trade_details
        daily_results := st.daily_results
        total_profit := st.equity
        profitable_days := st.profitable_days
        loss_days := st.loss_days
        profit_limit_triggered_days := st.profit_limit_triggered_days
        loss_limit_triggered_days := st.loss_limit_triggered_days
        total_trades := tc.length
        executed_trades := st.executed_trades
        winning_trades := st.winning_trades
        losing_trades := st.losing_trades
        profit_factor :=
          if 0 < st.loss_total then ((st.win_total / st.loss_total : ℚ) : WithTop ℚ)
          else (if 0 < st.win_total then ⊤ else 0)
        win_rate :=
          if 0 < st.executed_trades then
            (st.winning_trades : ℚ) / st.executed_trades * 100
          else 0
        max_drawdown := st.max_drawdown
        equity_curve := st.equity_curve }

/-! Derived definitions used by the verification. -/

/-- Invariant of the per-day loop: a triggered day sits exactly at its
limit, the two flags are mutually exclusive, and an untriggered running
total is strictly inside `(-L, P)`. -/
def DayInv (P L : ℚ) (s : DayState) : Prop :=
  (s.hitProfit = true → s.dcp = P) ∧
  (s.hitLoss = true → s.dcp = -L) ∧
  (s.hitProfit = true → s.hitLoss = false) ∧
  (s.hitProfit = false → s.hitLoss = false → -L < s.dcp ∧ s.dcp < P)

/-- The daily-metrics record produced for date `d`. -/
def dayMetric (tc : List Trade) (P L : ℚ) (d : Nat) : DailyMetric :=
  ⟨d, (processDay P L (get_trades_by_date tc d)).dcp,
    (processDay P L (get_trades_by_date tc d)).included.length,
    (processDay P L (get_trades_by_date tc d)).hitProfit,
    (processDay P L (get_trades_by_date tc d)).hitLoss⟩

/-- The per-day state `apply_daily_limits` computes for date `d`. -/
def procDayOf (tc : List Trade) (P L : ℚ) (d : Nat) : ProcDayState :=
  procDay P L (sort_trades (get_trades_by_date tc d))

/-- Relation between the per-day states of the two implementations: same
running total and the same trigger flags. -/
def DayRel (s : DayState) (q : ProcDayState) : Prop :=
  s.dcp = q.dcp ∧ s.hitProfit = q.profitTriggered ∧ s.hitLoss = q.lossTriggered

/-! Concrete trade collections used as inputs of counterexamples and
witnesses. -/

/-- Scenario A, first trade: +50. -/
def exTradeA1 : Trade := ⟨1, 0, 0, 50, 50, 50⟩

/-- Scenario A, second trade: +40. -/
def exTradeA2 : Trade := ⟨2, 0, 1, 40, 40, 40⟩

/-- Scenario A, third trade: +30. -/
def exTradeA3 : Trade := ⟨3, 0, 2, 30, 30, 30⟩

/-- Scenario A: one day with trades +50, +40, +30. -/
def exCollectionA : List Trade := [exTradeA1, exTradeA2, exTradeA3]

/-- One day with a single +150 trade whose excursion fields equal its
realized profit. -/
def exCollectionSimple : List Trade := [⟨1, 0, 0, 150, 150, 150⟩]

/-- One day with a single +50 trade. -/
def exCollectionSingle : List Trade := [⟨1, 0, 0, 50, 50, 50⟩]

/-- One day with +100 followed by -250: raising the profit cap past 100
lets the losing trade execute. -/
def exCollectionMono : List Trade := [⟨1, 0, 0, 100, 100, 100⟩, ⟨2, 0, 1, -250, -250, -250⟩]

/-- One day with a single trade realizing +50 whose maximal intra-trade
excursion is +120: the processor's potential-based trigger fires, the
optimizer's realized-based trigger does not. -/
def exCollectionExcursion : List Trade := [⟨1, 0, 0, 50, 120, 0⟩]

/-! Basic facts about the per-day loop of `_evaluate_parameters`. -/

theorem processTrade_skip (P L : ℚ) (s : DayState) (t : Trade)
    (h : s.hitProfit = true ∨ s.hitLoss = true) :
    processTrade P L s t = s := by
  unfold processTrade
  rcases h with h | h <;> simp [h]

theorem processTrade_profit (P L : ℚ) (s : DayState) (t : Trade)
    (h0 : s.hitProfit = false) (h1 : s.hitLoss = false)
    (hc : 0 < P ∧ P ≤ s.dcp + t.profit_usd) :
    processTrade P L s t = ⟨P, s.included ++ [t], true, false⟩ := by
  have hinner : ¬(0 < L ∧ P ≤ -L) := by
    rintro ⟨hl, hp⟩
    linarith [hc.1]
  simp [processTrade, h0, h1, hc, hinner]

theorem processTrade_loss (P L : ℚ) (s : DayState) (t : Trade)
    (h0 : s.hitProfit = false) (h1 : s.hitLoss = false)
    (hc : ¬(0 < P ∧ P ≤ s.dcp + t.profit_usd))
    (hl : 0 < L ∧ s.dcp + t.profit_usd ≤ -L) :
    processTrade P L s t = ⟨-L, s.included ++ [t], false, true⟩ := by
  simp [processTrade, h0, h1, hc, hl]

theorem processTrade_none (P L : ℚ) (s : DayState) (t : Trade)
    (h0 : s.hitProfit = false) (h1 : s.hitLoss = false)
    (hc : ¬(0 < P ∧ P ≤ s.dcp + t.profit_usd))
    (hl : ¬(0 < L ∧ s.dcp + t.profit_usd ≤ -L)) :
    processTrade P L s t = ⟨s.dcp + t.profit_usd, s.included ++ [t], false, false⟩ := by
  simp [processTrade, h0, h1, hc, hl]

theorem dayInv_step (P L : ℚ) (hP : 0 < P) (hL : 0 < L) (s : DayState) (t : Trade)
    (h : DayInv P L s) : DayInv P L (processTrade P L s t) := by
  by_cases h0 : s.hitProfit = true
  · rw [processTrade_skip P L s t (Or.inl h0)]; exact h
  by_cases h1 : s.hitLoss = true
  · rw [processTrade_skip P L s t (Or.inr h1)]; exact h
  rw [Bool.not_eq_true] at h0 h1
  by_cases hc : 0 < P ∧ P ≤ s.dcp + t.profit_usd
  · rw [processTrade_profit P L s t h0 h1 hc]
    refine ⟨fun _ => rfl, by simp, fun _ => rfl, by simp⟩
  by_cases hl : 0 < L ∧ s.dcp + t.profit_usd ≤ -L
  · rw [processTrade_loss P L s t h0 h1 hc hl]
    refine ⟨by simp, fun _ => rfl, by simp, by simp⟩
  · rw [processTrade_none P L s t h0 h1 hc hl]
    refine ⟨by simp, by simp, by simp, fun _ _ => ?_⟩
    constructor
    · rcases not_and_or.mp hl with h' | h'
      · exact absurd hL h'
      · exact lt_of_not_le (fun hle => h' hle)
    · rcases not_and_or.mp hc with h' | h'
      · exact absurd hP h'
      · exact lt_of_not_le (fun hle => h' hle)

theorem dayInv_foldl (P L : ℚ) (hP : 0 < P) (hL : 0 < L) :
    ∀ (l : List Trade) (s : DayState), DayInv P L s →
      DayInv P L (l.foldl (processTrade P L) s) := by
  intro l
  induction l with
  | nil => intro s h; exact h
  | cons t ts ih =>
    intro s h
    exact ih (processTrade P L s t) (dayInv_step P L hP hL s t h)

theorem processDay_inv (P L : ℚ) (hP : 0 < P) (hL : 0 < L) (l : List Trade) :
    DayInv P L (processDay P L l) := by
  refine dayInv_foldl P L hP hL l _ ?_
  refine ⟨by simp, by simp, by simp, fun _ _ => ⟨?_, ?_⟩⟩
  · show -L < (0 : ℚ)
    linarith
  · exact hP

/-- With a non-positive profit limit the guard `daily_profit_limit > 0`
never lets the profit flag be set. -/
theorem processTrade_hitProfit_of_nonpos (P L : ℚ) (hP : P ≤ 0)
    (s : DayState) (t : Trade) (h : s.hitProfit = false) :
    (processTrade P L s t).hitProfit = false := by
  unfold processTrade
  by_cases h1 : s.hitLoss = true
  · simp [h, h1]
  · rw [Bool.not_eq_true] at h1
    have hc : ¬(0 < P ∧ P ≤ s.dcp + t.profit_usd) := by
      rintro ⟨hp, _⟩; linarith
    by_cases hl : 0 < L ∧ s.dcp + t.profit_usd ≤ -L <;> simp [h, h1, hc, hl]

/-- With a non-positive loss limit the guard `daily_loss_limit > 0` never
lets the loss flag be set. -/
theorem processTrade_hitLoss_of_nonpos (P L : ℚ) (hL : L ≤ 0)
    (s : DayState) (t : Trade) (h : s.hitLoss = false) :
    (processTrade P L s t).hitLoss = false := by
  unfold processTrade
  by_cases h0 : s.hitProfit = true
  · simp [h, h0]
  · rw [Bool.not_eq_true] at h0
    have hinner : ¬(0 < L ∧ P ≤ -L) := by rintro ⟨hl, _⟩; linarith
    have hl' : ¬(0 < L ∧ s.dcp + t.profit_usd ≤ -L) := by rintro ⟨hl, _⟩; linarith
    by_cases hc : 0 < P ∧ P ≤ s.dcp + t.profit_usd <;> simp [h, h0, hc, hinner, hl']

theorem processDay_hitProfit_of_nonpos (P L : ℚ) (hP : P ≤ 0) (l : List Trade) :
    (processDay P L l).hitProfit = false := by
  suffices h : ∀ (l : List Trade) (s : DayState), s.hitProfit = false →
      (l.foldl (processTrade P L) s).hitProfit = false from h l _ rfl
  intro l
  induction l with
  | nil => intro s h; exact h
  | cons t ts ih =>
    intro s h
    exact ih _ (processTrade_hitProfit_of_nonpos P L hP s t h)

theorem processDay_hitLoss_of_nonpos (P L : ℚ) (hL : L ≤ 0) (l : List Trade) :
    (processDay P L l).hitLoss = false := by
  suffices h : ∀ (l : List Trade) (s : DayState), s.hitLoss = false →
      (l.foldl (processTrade P L) s).hitLoss = false from h l _ rfl
  intro l
  induction l with
  | nil => intro s h; exact h
  | cons t ts ih =>
    intro s h
    exact ih _ (processTrade_hitLoss_of_nonpos P L hL s t h)

/-! Characterization of the per-date fold of `_evaluate_parameters`. -/

theorem foldl_processDate_metrics (tc : List Trade) (P L : ℚ) :
    ∀ (ds : List Nat) (st : EvalState),
      (ds.foldl (processDate tc P L) st).daily_metrics
        = st.daily_metrics ++ ds.map (dayMetric tc P L) := by
  intro ds
  induction ds with
  | nil => intro st; simp
  | cons d ds ih =>
    intro st
    rw [List.foldl_cons, ih, List.map_cons]
    simp [processDate, dayMetric]

theorem evaluate_metrics (tc : List Trade) (P L : ℚ) :
    (evaluate_parameters tc P L).daily_metrics
      = (get_unique_dates tc).map (dayMetric tc P L) := by
  have h := foldl_processDate_metrics tc P L (get_unique_dates tc) evalInit
  simpa [evaluate_parameters, mkResult, evalInit] using h

theorem foldl_processDate_total (tc : List Trade) (P L : ℚ) :
    ∀ (ds : List Nat) (st : EvalState),
      (ds.foldl (processDate tc P L) st).total_profit
        = st.total_profit
          + (ds.map (fun d => (processDay P L (get_trades_by_date tc d)).dcp)).sum := by
  intro ds
  induction ds with
  | nil => intro st; simp
  | cons d ds ih =>
    intro st
    rw [List.foldl_cons, ih, List.map_cons, List.sum_cons]
    simp [processDate]
    ring

theorem evaluate_total (tc : List Trade) (P L : ℚ) :
    (evaluate_parameters tc P L).total_profit
      = ((get_unique_dates tc).map
          (fun d => (processDay P L (get_trades_by_date tc d)).dcp)).sum := by
  have h := foldl_processDate_total tc P L (get_unique_dates tc) evalInit
  simpa [evaluate_parameters, mkResult, evalInit] using h

theorem foldl_processDate_trades (tc : List Trade) (P L : ℚ) :
    ∀ (ds : List Nat) (st : EvalState),
      (ds.foldl (processDate tc P L) st).optimized_trades
        = st.optimized_trades
          ++ ds.flatMap (fun d => (processDay P L (get_trades_by_date tc d)).included) := by
  intro ds
  induction ds with
  | nil => intro st; simp
  | cons d ds ih =>
    intro st
    rw [List.foldl_cons, ih, List.flatMap_cons]
    simp [processDate]

theorem evaluate_trades (tc : List Trade) (P L : ℚ) :
    (evaluate_parameters tc P L).trades
      = (get_unique_dates tc).flatMap
          (fun d => (processDay P L (get_trades_by_date tc d)).included) := by
  have h := foldl_processDate_trades tc P L (get_unique_dates tc) evalInit
  simpa [evaluate_parameters, mkResult, evalInit] using h

theorem foldl_processDate_curve_len (tc : List Trade) (P L : ℚ) :
    ∀ (ds : List Nat) (st : EvalState),
      (ds.foldl (processDate tc P L) st).equity_curve.length
        = st.equity_curve.length + ds.length := by
  intro ds
  induction ds with
  | nil => intro st; simp
  | cons d ds ih =>
    intro st
    rw [List.foldl_cons, ih]
    simp [processDate]
    ring

theorem foldl_processDate_curve_last (tc : List Trade) (P L : ℚ) :
    ∀ (ds : List Nat) (st : EvalState),
      st.equity_curve.getLast? = some st.total_profit →
      (ds.foldl (processDate tc P L) st).equity_curve.getLast?
        = some (ds.foldl (processDate tc P L) st).total_profit := by
  intro ds
  induction ds with
  | nil => intro st h; exact h
  | cons d ds ih =>
    intro st _
    rw [List.foldl_cons]
    refine ih _ ?_
    simp [processDate, List.getLast?_concat]

theorem foldl_processDate_curve_head (tc : List Trade) (P L : ℚ) :
    ∀ (ds : List Nat) (st : EvalState), st.equity_curve ≠ [] →
      (ds.foldl (processDate tc P L) st).equity_curve.head?
        = st.equity_curve.head? := by
  intro ds
  induction ds with
  | nil => intro st _; rfl
  | cons d ds ih =>
    intro st hne
    rw [List.foldl_cons]
    have h1 : (processDate tc P L st d).equity_curve
        = st.equity_curve ++ [st.total_profit
            + (processDay P L (get_trades_by_date tc d)).dcp] := by
      simp [processDate]
    have h2 := ih (processDate tc P L st d) (by rw [h1]; simp)
    rw [h2, h1]
    rcases hc : st.equity_curve with _ | ⟨c, rest⟩
    · exact absurd hc hne
    · rfl

/-! Facts about `_calculate_max_drawdown`. -/

theorem mddStep_fst_le (st : ℚ × ℚ) (v : ℚ) : st.1 ≤ (mddStep st v).1 := by
  unfold mddStep
  dsimp only
  by_cases h : st.1 < (if st.2 < v then v else st.2) - v
  · rw [if_pos h]
    linarith
  · rw [if_neg h]

theorem foldl_mdd_fst_le : ∀ (l : List ℚ) (st : ℚ × ℚ),
    st.1 ≤ (l.foldl mddStep st).1 := by
  intro l
  induction l with
  | nil => intro st; exact le_refl _
  | cons v rest ih =>
    intro st
    exact le_trans (mddStep_fst_le st v) (ih (mddStep st v))

theorem mdd_nonneg (l : List ℚ) : 0 ≤ calculate_max_drawdown l :=
  foldl_mdd_fst_le l (0, l.headI)

theorem foldl_mdd_of_chain :
    ∀ (l : List ℚ) (p : ℚ), (∀ x, l.head? = some x → p ≤ x) →
      l.Chain' (· ≤ ·) → (l.foldl mddStep (0, p)).1 = 0 := by
  intro l
  induction l with
  | nil => intro p _ _; rfl
  | cons v rest ih =>
    intro p hp hc
    have hpv : p ≤ v := hp v rfl
    have hstep : mddStep (0, p) v = (0, v) := by
      unfold mddStep
      dsimp only
      have hpk : (if p < v then v else p) = v := by
        split
        · rfl
        · exact le_antisymm hpv (not_lt.mp (by assumption))
      rw [hpk]
      simp
    rw [List.foldl_cons, hstep]
    refine ih v ?_ hc.tail
    intro x hx
    cases rest with
    | nil => simp at hx
    | cons y ys =>
      simp at hx
      subst hx
      exact (List.chain'_cons.mp hc).1

theorem mdd_of_chain (l : List ℚ) (h : l.Chain' (· ≤ ·)) :
    calculate_max_drawdown l = 0 := by
  cases l with
  | nil => rfl
  | cons v rest =>
    unfold calculate_max_drawdown
    refine foldl_mdd_of_chain (v :: rest) (v :: rest).headI ?_ h
    intro x hx
    simp at hx
    subst hx
    rfl

theorem foldl_mdd_pos : ∀ (l : List ℚ) (st : ℚ × ℚ),
    ¬ l.Chain' (· ≤ ·) → 0 < (l.foldl mddStep st).1 := by
  intro l
  induction l with
  | nil => intro st h; exact absurd List.chain'_nil h
  | cons a rest ih =>
    intro st h
    cases rest with
    | nil => exact absurd (List.chain'_singleton a) h
    | cons b ys =>
      by_cases hab : a ≤ b
      · have hrest : ¬ (b :: ys).Chain' (· ≤ ·) := fun hc =>
          h (List.chain'_cons.mpr ⟨hab, hc⟩)
        rw [List.foldl_cons]
        exact ih _ hrest
      · have hba : b < a := not_le.mp hab
        rw [List.foldl_cons, List.foldl_cons]
        have hpeak : a ≤ (mddStep st a).2 := by
          unfold mddStep
          dsimp only
          by_cases h' : st.2 < a
          · rw [if_pos h']
          · rw [if_neg h']
            exact not_lt.mp h'
        have key : ∀ (s1 : ℚ × ℚ), a ≤ s1.2 → a - b ≤ (mddStep s1 b).1 := by
          intro s1 ha
          unfold mddStep
          dsimp only
          have hnb : ¬ s1.2 < b := not_lt.mpr (le_trans (le_of_lt hba) ha)
          rw [if_neg hnb]
          by_cases h' : s1.1 < s1.2 - b
          · rw [if_pos h']
            linarith
          · rw [if_neg h']
            have := not_lt.mp h'
            linarith
        calc (0 : ℚ) < a - b := by linarith
          _ ≤ (mddStep (mddStep st a) b).1 := key _ hpeak
          _ ≤ (ys.foldl mddStep (mddStep (mddStep st a) b)).1 := foldl_mdd_fst_le ys _

theorem mdd_zero_iff (l : List ℚ) :
    calculate_max_drawdown l = 0 ↔ l.Chain' (· ≤ ·) := by
  constructor
  · intro h
    by_contra hc
    have := foldl_mdd_pos l (0, l.headI) hc
    unfold calculate_max_drawdown at h
    linarith
  · exact mdd_of_chain l

/-! Claims C7-C10. -/

/-- Claim C7: for every trade collection and strictly positive limits, the
two hit-flags of a day's ledger entry are never both true, and the
profit-limit check is evaluated first: a step whose running total reaches
the profit threshold is classified as hitting the profit limit (and not
the loss limit). -/
theorem claim_C7 (tc : List Trade) (P L : ℚ) (hP : 0 < P) (hL : 0 < L) :
    (∀ m ∈ (evaluate_parameters tc P L).daily_metrics,
      ¬(m.hit_profit_limit = true ∧ m.hit_loss_limit = true)) ∧
    (∀ (s : DayState) (t : Trade), s.hitProfit = false → s.hitLoss = false →
      P ≤ s.dcp + t.profit_usd →
      (processTrade P L s t).hitProfit = true ∧ (processTrade P L s t).hitLoss = false) := by
  constructor
  · intro m hm
    rw [evaluate_metrics] at hm
    obtain ⟨d, _, rfl⟩ := List.mem_map.mp hm
    obtain ⟨_, _, h3, _⟩ := processDay_inv P L hP hL (get_trades_by_date tc d)
    rintro ⟨hp, hl⟩
    simp only [dayMetric] at hp hl
    rw [h3 hp] at hl
    exact Bool.false_ne_true hl
  · intro s t h0 h1 hge
    rw [processTrade_profit P L s t h0 h1 ⟨hP, hge⟩]
    exact ⟨rfl, rfl⟩

/-- Claim C7 witness: instance at Scenario A with both limits 100. -/
theorem claim_C7_witness :
    (0 : ℚ) < 100 ∧
    ((∀ m ∈ (evaluate_parameters exCollectionA 100 100).daily_metrics,
      ¬(m.hit_profit_limit = true ∧ m.hit_loss_limit = true)) ∧
    (∀ (s : DayState) (t : Trade), s.hitProfit = false → s.hitLoss = false →
      (100 : ℚ) ≤ s.dcp + t.profit_usd →
      (processTrade 100 100 s t).hitProfit = true ∧
      (processTrade 100 100 s t).hitLoss = false)) :=
  ⟨by norm_num, claim_C7 exCollectionA 100 100 (by norm_num) (by norm_num)⟩

/-- Claim C8: the equity curve has length `uniqueDates length + 1`, starts
with a leading 0, and its last element is the result's total profit. -/
theorem claim_C8 (tc : List Trade) (P L : ℚ) (hP : 0 < P) (hL : 0 < L) :
    (evaluate_parameters tc P L).equity_curve.length = (get_unique_dates tc).length + 1 ∧
    (evaluate_parameters tc P L).equity_curve.head? = some 0 ∧
    (evaluate_parameters tc P L).equity_curve.getLast?
      = some (evaluate_parameters tc P L).total_profit := by
  refine ⟨?_, ?_, ?_⟩
  · have h := foldl_processDate_curve_len tc P L (get_unique_dates tc) evalInit
    show ((get_unique_dates tc).foldl (processDate tc P L) evalInit).equity_curve.length = _
    rw [h]
    simp [evalInit]
    omega
  · have h := foldl_processDate_curve_head tc P L (get_unique_dates tc) evalInit
      (by simp [evalInit])
    show ((get_unique_dates tc).foldl (processDate tc P L) evalInit).equity_curve.head? = _
    rw [h]
    rfl
  · have h := foldl_processDate_curve_last tc P L (get_unique_dates tc) evalInit
      (by simp [evalInit])
    exact h

/-- Claim C8 witness: instance at Scenario A with both limits 100. -/
theorem claim_C8_witness :
    (0 : ℚ) < 100 ∧
    ((evaluate_parameters exCollectionA 100 100).equity_curve.length
        = (get_unique_dates exCollectionA).length + 1 ∧
      (evaluate_parameters exCollectionA 100 100).equity_curve.head? = some 0 ∧
      (evaluate_parameters exCollectionA 100 100).equity_curve.getLast?
        = some (evaluate_parameters exCollectionA 100 100).total_profit) :=
  ⟨by norm_num, claim_C8 exCollectionA 100 100 (by norm_num) (by norm_num)⟩

/-- Claim C9: the max drawdown of a simulation result is non-negative, and
it is zero exactly when the equity curve is non-decreasing throughout. -/
theorem claim_C9 (tc : List Trade) (P L : ℚ) :
    0 ≤ (evaluate_parameters tc P L).max_drawdown ∧
    ((evaluate_parameters tc P L).max_drawdown = 0 ↔
      (evaluate_parameters tc P L).equity_curve.Chain' (· ≤ ·)) := by
  have h : (evaluate_parameters tc P L).max_drawdown
      = calculate_max_drawdown (evaluate_parameters tc P L).equity_curve := rfl
  rw [h]
  exact ⟨mdd_nonneg _, mdd_zero_iff _⟩

/-- Claim C10: every per-day realized profit recorded in `daily_metrics`
lies in the closed interval `[-daily_loss_limit, daily_profit_limit]`. -/
theorem claim_C10 (tc : List Trade) (P L : ℚ) (hP : 0 < P) (hL : 0 < L) :
    ∀ m ∈ (evaluate_parameters tc P L).daily_metrics,
      -L ≤ m.profit ∧ m.profit ≤ P := by
  intro m hm
  rw [evaluate_metrics] at hm
  obtain ⟨d, _, rfl⟩ := List.mem_map.mp hm
  obtain ⟨h1, h2, _, h4⟩ := processDay_inv P L hP hL (get_trades_by_date tc d)
  show -L ≤ (processDay P L (get_trades_by_date tc d)).dcp ∧
    (processDay P L (get_trades_by_date tc d)).dcp ≤ P
  by_cases hp : (processDay P L (get_trades_by_date tc d)).hitProfit = true
  · rw [h1 hp]
    constructor <;> linarith
  · by_cases hl : (processDay P L (get_trades_by_date tc d)).hitLoss = true
    · rw [h2 hl]
      constructor <;> linarith
    · rw [Bool.not_eq_true] at hp hl
      obtain ⟨hlo, hhi⟩ := h4 hp hl
      constructor <;> linarith

/-! Claims C4, C5, C6. -/

/-- Claim C4 counterexample: with profit limit 0 (non-positive) the
optimizer does not reject the configuration: `_evaluate_parameters` has no
validation, simulation work proceeds normally (the trade is processed, a
full result with total profit 50 is returned) and the non-positive limit is
silently ignored because the guard `daily_profit_limit > 0` simply disables
the cap. -/
theorem claim_C4_counterexample :
    (evaluate_parameters exCollectionSingle 0 100).total_profit = 50 ∧
    (evaluate_parameters exCollectionSingle 0 100).trade_count = 1 ∧
    (evaluate_parameters exCollectionSingle 0 100).daily_metrics
      = [⟨0, 50, 1, false, false⟩] := by
  with_unfolding_all decide

/-- Claim C4 amended: `DataProcessor.apply_daily_limits` rejects a
non-positive profit (resp. loss) limit before any per-day work and reports
the corresponding structured failure, but `DailyLimitOptimizer` performs no
validation: a non-positive limit merely disables the corresponding cap (its
hit flag is never set) and the simulation proceeds. -/
theorem claim_C4_amended (tc : List Trade) (P L : ℚ) (hne : tc ≠ []) :
    (P ≤ 0 →
      apply_daily_limits tc P L = .error .nonPositiveProfitLimit ∧
      ∀ m ∈ (evaluate_parameters tc P L).daily_metrics, m.hit_profit_limit = false) ∧
    (0 < P → L ≤ 0 →
      apply_daily_limits tc P L = .error .nonPositiveLossLimit ∧
      ∀ m ∈ (evaluate_parameters tc P L).daily_metrics, m.hit_loss_limit = false) := by
  constructor
  · intro hP
    constructor
    · unfold apply_daily_limits
      rw [if_neg hne, if_pos hP]
    · intro m hm
      rw [evaluate_metrics] at hm
      obtain ⟨d, _, rfl⟩ := List.mem_map.mp hm
      exact processDay_hitProfit_of_nonpos P L hP _
  · intro hP hL
    constructor
    · unfold apply_daily_limits
      rw [if_neg hne, if_neg (not_le.mpr hP), if_pos hL]
    · intro m hm
      rw [evaluate_metrics] at hm
      obtain ⟨d, _, rfl⟩ := List.mem_map.mp hm
      exact processDay_hitLoss_of_nonpos P L hL _

/-- Claim C4 witness: the amended claim at a one-trade collection. -/
theorem claim_C4_witness :
    exCollectionSingle ≠ [] ∧
    (((0 : ℚ) ≤ 0 →
      apply_daily_limits exCollectionSingle 0 100 = .error .nonPositiveProfitLimit ∧
      ∀ m ∈ (evaluate_parameters exCollectionSingle 0 100).daily_metrics,
        m.hit_profit_limit = false) ∧
    ((0 : ℚ) < 0 → (100 : ℚ) ≤ 0 →
      apply_daily_limits exCollectionSingle 0 100 = .error .nonPositiveLossLimit ∧
      ∀ m ∈ (evaluate_parameters exCollectionSingle 0 100).daily_metrics,
        m.hit_loss_limit = false)) :=
  ⟨by decide, claim_C4_amended exCollectionSingle 0 100 (by decide)⟩

/-- Length of the pair grid. -/
theorem combinations_length (pls lls : List ℚ) :
    (combinations pls lls).length = pls.length * lls.length := by
  unfold combinations
  induction pls with
  | nil => simp
  | cons p ps ih =>
    simp only [List.flatMap_cons, List.length_append, List.length_map, ih, List.length_cons]
    ring

/-- Claim C5 counterexample: with an empty trade collection and limit
sequences `[100]`, `[50]`, the sweep returns a non-empty ranked list (one
zero-profit result for the single pair), not the empty list the claim
demands; the optimizer also has no status channel at all. -/
theorem claim_C5_counterexample :
    [((100 : ℚ), (50 : ℚ))].Perm (combinations [100] [50]) ∧
    run_optimization [] [((100 : ℚ), (50 : ℚ))] ≠ [] := by
  with_unfolding_all decide

/-- Claim C5 amended: an empty trade collection makes the sweep return one
result per parameter pair (for any completion order of the pair grid), each
with zero total profit and no trades; no failure path exists. -/
theorem claim_C5_amended (pls lls : List ℚ) (order : List (ℚ × ℚ))
    (hord : order.Perm (combinations pls lls)) :
    (run_optimization [] order).length = pls.length * lls.length ∧
    ∀ r ∈ run_optimization [] order,
      r.total_profit = 0 ∧ r.trade_count = 0 ∧ r.trades = [] := by
  constructor
  · unfold run_optimization
    rw [List.length_insertionSort, List.length_map, hord.length_eq, combinations_length]
  · intro r hr
    unfold run_optimization at hr
    rw [List.mem_insertionSort] at hr
    obtain ⟨p, _, rfl⟩ := List.mem_map.mp hr
    exact ⟨rfl, rfl, rfl⟩

/-- Claim C5 witness: the amended claim for the one-pair grid `[100] × [50]`. -/
theorem claim_C5_witness :
    [((100 : ℚ), (50 : ℚ))].Perm (combinations [100] [50]) ∧
    ((run_optimization [] [((100 : ℚ), (50 : ℚ))]).length
        = [(100 : ℚ)].length * [(50 : ℚ)].length ∧
      ∀ r ∈ run_optimization [] [((100 : ℚ), (50 : ℚ))],
        r.total_profit = 0 ∧ r.trade_count = 0 ∧ r.trades = []) :=
  ⟨by decide, claim_C5_amended [100] [50] [((100 : ℚ), (50 : ℚ))] (by decide)⟩

/-- In a result's daily metrics, a day whose profit flag is set realized
exactly the profit limit. -/
theorem metric_hit_profit_eq (tc : List Trade) (P L : ℚ) (hP : 0 < P) (hL : 0 < L)
    (i : Nat) (hi : i < (evaluate_parameters tc P L).daily_metrics.length)
    (hhit : ((evaluate_parameters tc P L).daily_metrics.get ⟨i, hi⟩).hit_profit_limit = true) :
    ((evaluate_parameters tc P L).daily_metrics.get ⟨i, hi⟩).profit = P := by
  have hlen := congrArg List.length (evaluate_metrics tc P L)
  rw [List.length_map] at hlen
  have hi' : i < (get_unique_dates tc).length := hlen ▸ hi
  have hsome : (evaluate_parameters tc P L).daily_metrics[i]?
      = some ((evaluate_parameters tc P L).daily_metrics.get ⟨i, hi⟩) :=
    List.getElem?_eq_getElem hi
  have hsome2 : (evaluate_parameters tc P L).daily_metrics[i]?
      = some (dayMetric tc P L ((get_unique_dates tc).get ⟨i, hi'⟩)) := by
    rw [evaluate_metrics tc P L, List.getElem?_map, List.getElem?_eq_getElem hi']
    rfl
  have hEq : (evaluate_parameters tc P L).daily_metrics.get ⟨i, hi⟩
      = dayMetric tc P L ((get_unique_dates tc).get ⟨i, hi'⟩) :=
    Option.some.inj (hsome.symm.trans hsome2)
  rw [hEq] at hhit ⊢
  simp only [dayMetric] at hhit ⊢
  exact (processDay_inv P L hP hL _).1 hhit

/-- Claim C6 counterexample: collection with one day (+100 then -250), loss
limit 1000.  Under profit limit 100 the day hits the profit cap and
realizes 100; under the larger profit limit 150 the cap is not hit, the
losing trade executes, and the day realizes -150 < 100.  Increasing the
profit limit decreased the day's realized profit, refuting monotonicity. -/
theorem claim_C6_counterexample :
    ((evaluate_parameters exCollectionMono 100 1000).daily_metrics.map
        (fun m => (m.profit, m.hit_profit_limit))) = [(100, true)] ∧
    ((evaluate_parameters exCollectionMono 150 1000).daily_metrics.map
        (fun m => (m.profit, m.hit_profit_limit))) = [(-150, false)] ∧
    ¬ ((100 : ℚ) ≤ -150) := by
  with_unfolding_all decide

/-- Claim C6 amended: for a fixed strictly positive loss limit and profit
limits `P1 ≤ P2`, a day that hits the profit cap under BOTH limits realizes
exactly `P1` under the first and at least as much (namely `P2`) under the
second.  Without the second-hit hypothesis the original claim is false, and
a capped day's realized profit (the limit itself) may exceed the uncapped
day profit. -/
theorem claim_C6_amended (tc : List Trade) (P1 P2 L : ℚ) (hP1 : 0 < P1)
    (h12 : P1 ≤ P2) (hL : 0 < L) (i : Nat)
    (hi1 : i < (evaluate_parameters tc P1 L).daily_metrics.length)
    (hi2 : i < (evaluate_parameters tc P2 L).daily_metrics.length)
    (hhit1 : ((evaluate_parameters tc P1 L).daily_metrics.get ⟨i, hi1⟩).hit_profit_limit = true)
    (hhit2 : ((evaluate_parameters tc P2 L).daily_metrics.get ⟨i, hi2⟩).hit_profit_limit = true) :
    ((evaluate_parameters tc P1 L).daily_metrics.get ⟨i, hi1⟩).profit = P1 ∧
    ((evaluate_parameters tc P2 L).daily_metrics.get ⟨i, hi2⟩).profit = P2 ∧
    ((evaluate_parameters tc P1 L).daily_metrics.get ⟨i, hi1⟩).profit
      ≤ ((evaluate_parameters tc P2 L).daily_metrics.get ⟨i, hi2⟩).profit := by
  have h1 := metric_hit_profit_eq tc P1 L hP1 hL i hi1 hhit1
  have h2 := metric_hit_profit_eq tc P2 L (lt_of_lt_of_le hP1 h12) hL i hi2 hhit2
  exact ⟨h1, h2, by rw [h1, h2]; exact h12⟩

/-- Claim C6 witness: one +150 trade, loss limit 50; the day hits the
profit cap under both 100 and 120. -/
theorem claim_C6_witness :
    ((evaluate_parameters exCollectionSimple 100 50).daily_metrics.get
        ⟨0, by with_unfolding_all decide⟩).profit = 100 ∧
    ((evaluate_parameters exCollectionSimple 120 50).daily_metrics.get
        ⟨0, by with_unfolding_all decide⟩).profit = 120 ∧
    ((evaluate_parameters exCollectionSimple 100 50).daily_metrics.get
        ⟨0, by with_unfolding_all decide⟩).profit
      ≤ ((evaluate_parameters exCollectionSimple 120 50).daily_metrics.get
        ⟨0, by with_unfolding_all decide⟩).profit :=
  claim_C6_amended exCollectionSimple 100 120 50 (by norm_num) (by norm_num) (by norm_num) 0
    (by with_unfolding_all decide) (by with_unfolding_all decide)
    (by with_unfolding_all decide) (by with_unfolding_all decide)

/-! Claim C2: the relation between the two implementations. -/

theorem procTrade_skip (P L : ℚ) (q : ProcDayState) (t : Trade)
    (h : q.profitTriggered = true ∨ q.lossTriggered = true) :
    procTrade P L q t = { q with rows := q.rows ++ [⟨0, t.profit_usd, false⟩] } := by
  unfold procTrade
  rcases h with h | h <;> simp [h]

theorem procTrade_profit (P L : ℚ) (q : ProcDayState) (t : Trade)
    (h0 : q.profitTriggered = false) (h1 : q.lossTriggered = false)
    (hc : 0 < t.profit_usd ∧ P ≤ q.dcp + t.max_profit_usd) :
    procTrade P L q t =
      { dcp := P
        profitTriggered := true
        lossTriggered := false
        rows := q.rows ++ [⟨P - q.dcp, t.profit_usd, true⟩] } := by
  simp [procTrade, h0, h1, hc]

theorem procTrade_loss (P L : ℚ) (q : ProcDayState) (t : Trade)
    (h0 : q.profitTriggered = false) (h1 : q.lossTriggered = false)
    (hc : ¬(0 < t.profit_usd ∧ P ≤ q.dcp + t.max_profit_usd))
    (hl : t.profit_usd < 0 ∧ q.dcp - |t.max_loss_usd| ≤ -L) :
    procTrade P L q t =
      { dcp := -L
        profitTriggered := false
        lossTriggered := true
        rows := q.rows ++ [⟨-L - q.dcp, t.profit_usd, true⟩] } := by
  simp [procTrade, h0, h1, hc, hl]

theorem procTrade_none (P L : ℚ) (q : ProcDayState) (t : Trade)
    (h0 : q.profitTriggered = false) (h1 : q.lossTriggered = false)
    (hc : ¬(0 < t.profit_usd ∧ P ≤ q.dcp + t.max_profit_usd))
    (hl : ¬(t.profit_usd < 0 ∧ q.dcp - |t.max_loss_usd| ≤ -L)) :
    procTrade P L q t =
      { q with
        dcp := q.dcp + t.profit_usd
        rows := q.rows ++ [⟨t.profit_usd, t.profit_usd, true⟩] } := by
  simp [procTrade, h0, h1, hc, hl]
  intro hneg
  rcases not_and_or.mp hl with h' | h'
  · exact absurd hneg h'
  · have := lt_of_not_le h'
    linarith

/-- One-step preservation: on a trade whose excursion fields equal its
realized profit, the two per-trade loops move in lockstep. -/
theorem dayRel_step (P L : ℚ) (hP : 0 < P) (hL : 0 < L) (s : DayState) (q : ProcDayState)
    (t : Trade) (ht : t.max_profit_usd = t.profit_usd ∧ t.max_loss_usd = t.profit_usd)
    (hinv : DayInv P L s) (h : DayRel s q) :
    DayRel (processTrade P L s t) (procTrade P L q t) := by
  obtain ⟨hd, hp, hl⟩ := h
  by_cases h0 : s.hitProfit = true
  · rw [processTrade_skip P L s t (Or.inl h0),
      procTrade_skip P L q t (Or.inl (hp.symm.trans h0))]
    exact ⟨hd, hp, hl⟩
  by_cases h1 : s.hitLoss = true
  · rw [processTrade_skip P L s t (Or.inr h1),
      procTrade_skip P L q t (Or.inr (hl.symm.trans h1))]
    exact ⟨hd, hp, hl⟩
  rw [Bool.not_eq_true] at h0 h1
  have hq0 : q.profitTriggered = false := hp.symm.trans h0
  have hq1 : q.lossTriggered = false := hl.symm.trans h1
  have hrange := hinv.2.2.2 h0 h1
  by_cases hc : 0 < P ∧ P ≤ s.dcp + t.profit_usd
  · have htp : 0 < t.profit_usd := by linarith [hrange.2, hc.2]
    have hqc : 0 < t.profit_usd ∧ P ≤ q.dcp + t.max_profit_usd := by
      refine ⟨htp, ?_⟩
      rw [ht.1, ← hd]
      exact hc.2
    rw [processTrade_profit P L s t h0 h1 hc, procTrade_profit P L q t hq0 hq1 hqc]
    exact ⟨rfl, rfl, rfl⟩
  · by_cases hlc : 0 < L ∧ s.dcp + t.profit_usd ≤ -L
    · have htn : t.profit_usd < 0 := by linarith [hrange.1, hlc.2]
      have habs : |t.max_loss_usd| = -t.profit_usd := by
        rw [ht.2]
        exact abs_of_neg htn
      have hqlc : t.profit_usd < 0 ∧ q.dcp - |t.max_loss_usd| ≤ -L := by
        refine ⟨htn, ?_⟩
        rw [habs, ← hd]
        linarith [hlc.2]
      have hqnc : ¬(0 < t.profit_usd ∧ P ≤ q.dcp + t.max_profit_usd) := by
        rintro ⟨hpos, _⟩
        linarith
      rw [processTrade_loss P L s t h0 h1 hc hlc, procTrade_loss P L q t hq0 hq1 hqnc hqlc]
      exact ⟨rfl, rfl, rfl⟩
    · have hd1lt : s.dcp + t.profit_usd < P := by
        rcases not_and_or.mp hc with h' | h'
        · exact absurd hP h'
        · exact lt_of_not_le h'
      have hd1gt : -L < s.dcp + t.profit_usd := by
        rcases not_and_or.mp hlc with h' | h'
        · exact absurd hL h'
        · exact lt_of_not_le h'
      have hqnc : ¬(0 < t.profit_usd ∧ P ≤ q.dcp + t.max_profit_usd) := by
        rintro ⟨hpos, hge⟩
        rw [ht.1, ← hd] at hge
        linarith
      have hqnl : ¬(t.profit_usd < 0 ∧ q.dcp - |t.max_loss_usd| ≤ -L) := by
        rintro ⟨hneg, hle⟩
        rw [ht.2, abs_of_neg hneg, ← hd] at hle
        linarith
      rw [processTrade_none P L s t h0 h1 hc hlc, procTrade_none P L q t hq0 hq1 hqnc hqnl]
      exact ⟨by rw [hd], hq0.symm, hq1.symm⟩

theorem dayRel_foldl (P L : ℚ) (hP : 0 < P) (hL : 0 < L) :
    ∀ (l : List Trade) (s : DayState) (q : ProcDayState),
      (∀ t ∈ l, t.max_profit_usd = t.profit_usd ∧ t.max_loss_usd = t.profit_usd) →
      DayInv P L s → DayRel s q →
      DayRel (l.foldl (processTrade P L) s) (l.foldl (procTrade P L) q) := by
  intro l
  induction l with
  | nil => intro s q _ _ h; exact h
  | cons t ts ih =>
    intro s q hexc hinv h
    exact ih _ _ (fun u hu => hexc u (List.mem_cons_of_mem t hu))
      (dayInv_step P L hP hL s t hinv)
      (dayRel_step P L hP hL s q t (hexc t (List.mem_cons_self t ts)) hinv h)

theorem procDay_rel (P L : ℚ) (hP : 0 < P) (hL : 0 < L) (l : List Trade)
    (hexc : ∀ t ∈ l, t.max_profit_usd = t.profit_usd ∧ t.max_loss_usd = t.profit_usd) :
    DayRel (processDay P L l) (procDay P L l) := by
  refine dayRel_foldl P L hP hL l _ _ hexc ?_ ⟨rfl, rfl, rfl⟩
  refine ⟨by simp, by simp, by simp, fun _ _ => ⟨?_, ?_⟩⟩
  · show -L < (0 : ℚ)
    linarith
  · exact hP

theorem foldl_applyDate_triples (tc : List Trade) (P L : ℚ) :
    ∀ (ds : List Nat) (st : ApplyState),
      ((ds.foldl (applyDate tc P L) st).daily_results.map
        (fun dr => (dr.daily_profit, dr.profit_limit_triggered, dr.loss_limit_triggered)))
      = st.daily_results.map
          (fun dr => (dr.daily_profit, dr.profit_limit_triggered, dr.loss_limit_triggered))
        ++ ds.map (fun d => ((procDayOf tc P L d).dcp, (procDayOf tc P L d).profitTriggered,
            (procDayOf tc P L d).lossTriggered)) := by
  intro ds
  induction ds with
  | nil => intro st; simp
  | cons d ds ih =>
    intro st
    rw [List.foldl_cons, ih, List.map_cons]
    simp [applyDate, procDayOf]

theorem foldl_applyDate_equity (tc : List Trade) (P L : ℚ) :
    ∀ (ds : List Nat) (st : ApplyState),
      (ds.foldl (applyDate tc P L) st).equity
        = st.equity + (ds.map (fun d => (procDayOf tc P L d).dcp)).sum := by
  intro ds
  induction ds with
  | nil => intro st; simp
  | cons d ds ih =>
    intro st
    rw [List.foldl_cons, ih, List.map_cons, List.sum_cons]
    simp [applyDate, procDayOf]
    ring

/-- Claim C2 counterexample: one trade realizing +50 with maximal
intra-trade profit excursion +120, limits (100, 100).  The optimizer
triggers on the realized cumulative profit and records day profit 50 with
no trigger; the processor triggers on the potential (cumulative + maximal
excursion) and records day profit 100 with the profit flag set.  The two
implementations disagree on per-day profit, total profit and trigger
classification. -/
theorem claim_C2_counterexample :
    (evaluate_parameters exCollectionExcursion 100 100).total_profit = 50 ∧
    ((evaluate_parameters exCollectionExcursion 100 100).daily_metrics.map
        (fun m => (m.profit, m.hit_profit_limit, m.hit_loss_limit))) = [(50, false, false)] ∧
    (apply_daily_limits exCollectionExcursion 100 100).toOption.map (·.total_profit)
      = some 100 ∧
    (apply_daily_limits exCollectionExcursion 100 100).toOption.map
        (fun r => r.daily_results.map
          (fun dr => (dr.daily_profit, dr.profit_limit_triggered, dr.loss_limit_triggered)))
      = some [(100, true, false)] ∧
    ((50 : ℚ), false, false) ≠ ((100 : ℚ), true, false) := by
  with_unfolding_all decide

/-- Claim C2 amended: the two implementations are NOT isomorphic in
general (the processor triggers on potential intra-trade excursions, the
optimizer on realized cumulative profit).  They agree — same per-day
realized profit, same total profit, same per-day trigger classification —
on every sorted non-empty collection whose trades have excursion fields
equal to their realized profit, under strictly positive limits. -/
theorem claim_C2_amended (tc : List Trade) (P L : ℚ) (hP : 0 < P) (hL : 0 < L)
    (hne : tc ≠ []) (hsorted : tc.Sorted entryLe)
    (hexc : ∀ t ∈ tc, t.max_profit_usd = t.profit_usd ∧ t.max_loss_usd = t.profit_usd) :
    ∃ r, apply_daily_limits tc P L = .ok r ∧
      r.total_profit = (evaluate_parameters tc P L).total_profit ∧
      r.daily_results.map
          (fun dr => (dr.daily_profit, dr.profit_limit_triggered, dr.loss_limit_triggered))
        = (evaluate_parameters tc P L).daily_metrics.map
          (fun m => (m.profit, m.hit_profit_limit, m.hit_loss_limit)) := by
  have hday : ∀ d, DayRel (processDay P L (get_trades_by_date tc d)) (procDayOf tc P L d) := by
    intro d
    have hsf : (get_trades_by_date tc d).Sorted entryLe := hsorted.filter _
    have heq : procDayOf tc P L d = procDay P L (get_trades_by_date tc d) := by
      unfold procDayOf sort_trades
      rw [hsf.insertionSort_eq]
    rw [heq]
    exact procDay_rel P L hP hL _ (fun t htm => hexc t (List.mem_of_mem_filter htm))
  unfold apply_daily_limits
  rw [if_neg hne, if_neg (not_le.mpr hP), if_neg (not_le.mpr hL)]
  refine ⟨_, rfl, ?_, ?_⟩
  · show ((get_unique_dates tc).foldl (applyDate tc P L) applyInit).equity = _
    rw [foldl_applyDate_equity tc P L (get_unique_dates tc) applyInit, evaluate_total]
    show (0 : ℚ) + _ = _
    rw [zero_add]
    congr 1
    refine List.map_eq_map_iff.mpr (fun d _ => ?_)
    exact (hday d).1.symm
  · show (((get_unique_dates tc).foldl (applyDate tc P L) applyInit).daily_results.map _) = _
    rw [foldl_applyDate_triples tc P L (get_unique_dates tc) applyInit, evaluate_metrics,
      List.map_map]
    show [] ++ _ = _
    rw [List.nil_append]
    refine List.map_eq_map_iff.mpr (fun d _ => ?_)
    obtain ⟨h1, h2, h3⟩ := hday d
    simp only [Function.comp, dayMetric]
    rw [h1, h2, h3]

/-- Claim C2 witness: the amended claim at a one-trade collection whose
excursions equal its profit, limits (100, 100). -/
theorem claim_C2_witness :
    ∃ r, apply_daily_limits exCollectionSimple 100 100 = .ok r ∧
      r.total_profit = (evaluate_parameters exCollectionSimple 100 100).total_profit ∧
      r.daily_results.map
          (fun dr => (dr.daily_profit, dr.profit_limit_triggered, dr.loss_limit_triggered))
        = (evaluate_parameters exCollectionSimple 100 100).daily_metrics.map
          (fun m => (m.profit, m.hit_profit_limit, m.hit_loss_limit)) :=
  claim_C2_amended exCollectionSimple 100 100 (by norm_num) (by norm_num) (by decide)
    (by decide) (by decide)

/-! Claim C3: sweep determinism. -/

/-- Two sorted permutations of each other with pairwise distinct total
profits are equal. -/
theorem sorted_perm_distinct_eq :
    ∀ {l1 l2 : List OptimizationResult}, l1.Perm l2 →
      l1.Sorted resultGe → l2.Sorted resultGe →
      l1.Pairwise (fun a b => a.total_profit ≠ b.total_profit) → l1 = l2 := by
  intro l1
  induction l1 with
  | nil =>
    intro l2 hp _ _ _
    exact (hp.symm.eq_nil).symm
  | cons a t1 ih =>
    intro l2 hp hs1 hs2 hpw
    have ha2 : a ∈ l2 := hp.subset (List.mem_cons_self a t1)
    cases l2 with
    | nil => simp at ha2
    | cons b t2 =>
      have hab : a = b := by
        rcases List.mem_cons.mp ha2 with h | h
        · exact h
        · have h1 : a.total_profit ≤ b.total_profit := (List.sorted_cons.mp hs2).1 a h
          have hb1 : b ∈ a :: t1 := hp.symm.subset (List.mem_cons_self b t2)
          rcases List.mem_cons.mp hb1 with h' | h'
          · exact h'.symm
          · have h2 : b.total_profit ≤ a.total_profit := (List.sorted_cons.mp hs1).1 b h'
            have hne := (List.pairwise_cons.mp hpw).1 b h'
            exact absurd (le_antisymm h1 h2) hne
      subst hab
      have hp' : t1.Perm t2 := hp.cons_inv
      rw [ih hp' (List.sorted_cons.mp hs1).2 (List.sorted_cons.mp hs2).2
        (List.pairwise_cons.mp hpw).2]

/-- Claim C3 counterexample: two completion orders of the same pair grid
(on the empty collection, where both pairs tie at total profit 0) give
DIFFERENT ranked lists: the stable sort keeps ties in arrival order, which
is the nondeterministic `as_completed` order, refuting "identical ranked
output lists ... independent of the order in which workers complete". -/
theorem claim_C3_counterexample :
    [((200 : ℚ), (50 : ℚ)), (100, 50)].Perm (combinations [100, 200] [50]) ∧
    run_optimization [] [((100 : ℚ), (50 : ℚ)), (200, 50)]
      ≠ run_optimization [] [((200 : ℚ), (50 : ℚ)), (100, 50)] := by
  with_unfolding_all decide

/-- Claim C3 amended: whenever the total profits of the grid's results are
pairwise distinct (no ties), any two completion orders of the pair grid
yield identical ranked lists, sorted descending by total profit.  With
ties, the relative order of tied results depends on worker completion
order. -/
theorem claim_C3_amended (tc : List Trade) (pls lls : List ℚ) (o1 o2 : List (ℚ × ℚ))
    (h1 : o1.Perm (combinations pls lls)) (h2 : o2.Perm (combinations pls lls))
    (hdist : (((combinations pls lls).map fun p => evaluate_parameters tc p.1 p.2).Pairwise
      (fun a b => a.total_profit ≠ b.total_profit))) :
    run_optimization tc o1 = run_optimization tc o2 := by
  unfold run_optimization
  have hm1 : (o1.map fun p => evaluate_parameters tc p.1 p.2).Perm
      ((combinations pls lls).map fun p => evaluate_parameters tc p.1 p.2) :=
    h1.map _
  have hm2 : (o2.map fun p => evaluate_parameters tc p.1 p.2).Perm
      ((combinations pls lls).map fun p => evaluate_parameters tc p.1 p.2) :=
    h2.map _
  have hperm : (List.insertionSort resultGe (o1.map fun p => evaluate_parameters tc p.1 p.2)).Perm
      (List.insertionSort resultGe (o2.map fun p => evaluate_parameters tc p.1 p.2)) :=
    ((List.perm_insertionSort _ _).trans (hm1.trans hm2.symm)).trans
      (List.perm_insertionSort _ _).symm
  have hpw := (List.Perm.pairwise_iff (fun h => Ne.symm h)
    ((List.perm_insertionSort resultGe (o1.map fun p => evaluate_parameters tc p.1 p.2)).trans
      hm1)).mpr hdist
  exact sorted_perm_distinct_eq hperm (List.sorted_insertionSort _ _)
    (List.sorted_insertionSort _ _) hpw

/-- Claim C3 witness: on a collection whose two grid results have distinct
totals (100 and 150), the two completion orders agree. -/
theorem claim_C3_witness :
    run_optimization exCollectionSimple [((100 : ℚ), (50 : ℚ)), (200, 50)]
      = run_optimization exCollectionSimple [((200 : ℚ), (50 : ℚ)), (100, 50)] :=
  claim_C3_amended exCollectionSimple [100, 200] [50] _ _
    (by with_unfolding_all decide) (by with_unfolding_all decide)
    (by with_unfolding_all decide)

/-! Claim C1: Scenario A. -/

/-- Claim C1 counterexample: at trades +50, +40, +30 with profit limit 100
and loss limit 100, the day's realized profit is 100 and the profit flag is
set, but the included-trades collection contains all three trades — the
source appends a trade to `daily_included_trades` before the cap check, so
the triggering third trade is included, refuting "exactly the first two
trades". -/
theorem claim_C1_counterexample :
    (evaluate_parameters exCollectionA 100 100).daily_metrics
      = [⟨0, 100, 3, true, false⟩] ∧
    (evaluate_parameters exCollectionA 100 100).trades ≠ [exTradeA1, exTradeA2] := by
  with_unfolding_all decide

/-- Claim C1 amended: for the Scenario A collection with profit limit 100
and any strictly positive loss limit, the day records realized profit 100
and a set profit flag, and the included-trades collection contains all
three trades (the triggering trade is included; only trades after the
trigger would be excluded). -/
theorem claim_C1_amended (L : ℚ) (hL : 0 < L) :
    (evaluate_parameters exCollectionA 100 L).daily_metrics
      = [⟨0, 100, 3, true, false⟩] ∧
    (evaluate_parameters exCollectionA 100 L).trades = [exTradeA1, exTradeA2, exTradeA3] ∧
    (evaluate_parameters exCollectionA 100 L).total_profit = 100 := by
  have hdates : get_unique_dates exCollectionA = [0] := by decide
  have htr : get_trades_by_date exCollectionA 0 = [exTradeA1, exTradeA2, exTradeA3] := by
    decide
  have e1 : processTrade 100 L ⟨0, [], false, false⟩ exTradeA1
      = ⟨50, [exTradeA1], false, false⟩ := by
    rw [processTrade_none 100 L ⟨0, [], false, false⟩ exTradeA1 rfl rfl
      (by norm_num [exTradeA1])
      (by rintro ⟨h1, h2⟩; simp only [exTradeA1] at h2; linarith)]
    norm_num [exTradeA1]
  have e2 : processTrade 100 L ⟨50, [exTradeA1], false, false⟩ exTradeA2
      = ⟨90, [exTradeA1, exTradeA2], false, false⟩ := by
    rw [processTrade_none 100 L ⟨50, [exTradeA1], false, false⟩ exTradeA2 rfl rfl
      (by norm_num [exTradeA2])
      (by rintro ⟨h1, h2⟩; simp only [exTradeA2] at h2; linarith)]
    norm_num [exTradeA2]
  have e3 : processTrade 100 L ⟨90, [exTradeA1, exTradeA2], false, false⟩ exTradeA3
      = ⟨100, [exTradeA1, exTradeA2, exTradeA3], true, false⟩ := by
    rw [processTrade_profit 100 L ⟨90, [exTradeA1, exTradeA2], false, false⟩ exTradeA3 rfl rfl
      (by norm_num [exTradeA3])]
    norm_num
  have hday : processDay 100 L (get_trades_by_date exCollectionA 0)
      = ⟨100, [exTradeA1, exTradeA2, exTradeA3], true, false⟩ := by
    rw [htr]
    unfold processDay
    rw [List.foldl_cons, e1, List.foldl_cons, e2, List.foldl_cons, e3, List.foldl_nil]
  refine ⟨?_, ?_, ?_⟩
  · rw [evaluate_metrics, hdates]
    simp [dayMetric, hday]
  · rw [evaluate_trades, hdates]
    simp [hday]
  · rw [evaluate_total, hdates]
    simp [hday]

/-- Claim C1 witness: the amended claim at loss limit 100. -/
theorem claim_C1_witness :
    (0 : ℚ) < 100 ∧
    ((evaluate_parameters exCollectionA 100 100).daily_metrics
        = [⟨0, 100, 3, true, false⟩] ∧
      (evaluate_parameters exCollectionA 100 100).trades
        = [exTradeA1, exTradeA2, exTradeA3] ∧
      (evaluate_parameters exCollectionA 100 100).total_profit = 100) :=
  ⟨by norm_num, claim_C1_amended 100 (by norm_num)⟩

/-- Claim C10 witness: instance at Scenario A with both limits 100. -/
theorem claim_C10_witness :
    (0 : ℚ) < 100 ∧
    ∀ m ∈ (evaluate_parameters exCollectionA 100 100).daily_metrics,
      -(100 : ℚ) ≤ m.profit ∧ m.profit ≤ 100 :=
  ⟨by norm_num, claim_C10 exCollectionA 100 100 (by norm_num) (by norm_num)⟩

end BacktestAnalyzer
